import Mathlib

/-!
Verification of the JNI reflection glue in
`junixsocket-native/src/main/c/reflection.c`.

The file reaches into Java runtime objects by name-based reflection.  We give a
shallow embedding: Java objects are finite field/method tables addressed by a
reference number in a heap; JNI field lookups (`GetFieldID`) become lookups by
field name and type signature; `SetIntField` / `SetObjectField` become heap
updates; a pending Java exception becomes an `err` component of the result; the
process-wide `static jboolean doSetServerSocket` becomes a flag in the
environment.  Each of the four exported functions of `reflection.c`
(`initServerImpl`, `setPort`, `attachCloseable`, `currentRMISocket`) is
translated to a Lean function on that environment, and every observable action
(field write, write attempt, method invocation) is recorded in an event trace.
-/

/-- A Java value as seen through JNI in this file: the null reference, a
32-bit `jint` (modelled as `Int`), or a reference to a heap object. -/
inductive JValue where
  | vNull : JValue
  | vInt (i : Int) : JValue
  | vRef (r : Nat) : JValue
deriving DecidableEq, Repr

/-- An instance field: name, JVM type signature, current value.
`GetFieldID` resolves a field by name and signature. -/
structure JField where
  name : String
  sig : String
  value : JValue
deriving DecidableEq, Repr

/-- A method as visible to `GetMethodID` / `CallObjectMethod`: name, JVM
signature, and the value the call returns (the method body is outside the
native code being modelled). -/
structure JMethod where
  name : String
  sig : String
  ret : JValue
deriving DecidableEq, Repr

/-- A Java object: its instance fields and its callable methods. -/
structure JObject where
  fields : List JField
  methods : List JMethod
deriving DecidableEq, Repr

/-- The heap: an association list from reference numbers to objects. -/
abbrev Heap := List (Nat × JObject)

/-- A loaded class, as needed by `currentRMISocket`: its static fields. -/
structure JClass where
  staticFields : List JField
deriving DecidableEq, Repr

/-- The environment a native call runs in: the heap, the loaded classes
(for `FindClass`), and the process-wide one-shot flag
`static jboolean doSetServerSocket` of reflection.c. -/
structure Env where
  heap : Heap
  classes : List (String × JClass)
  doSetServerSocket : Bool
deriving DecidableEq, Repr

/-- Observable actions performed by a native call. -/
inductive Event where
  /-- An actual field write (`SetIntField` / `SetObjectField`). -/
  | writeField (r : Nat) (name : String) (v : JValue) : Event
  /-- A best-effort write attempt (`setObjectFieldValueIfPossible` was
  invoked on field `name` of object `r`); it may or may not have succeeded. -/
  | attemptWrite (r : Nat) (name : String) : Event
  /-- A method invocation (`CallObjectMethod` / an object setter call). -/
  | callMethod (r : Nat) (name : String) (sig : String) (arg : Option JValue) : Event
deriving DecidableEq, Repr

/-- Holds exactly for field-write events. -/
def Event.isWrite : Event → Bool
  | .writeField _ _ _ => true
  | _ => false

/-- Holds exactly for best-effort write-attempt events. -/
def Event.isAttempt : Event → Bool
  | .attemptWrite _ _ => true
  | _ => false

/-- Result of one native call: the environment afterwards, the trace of
observable actions, the returned value (`vNull` for `void`), and the pending
Java exception, if any, as (exception kind, message). -/
structure OpResult where
  env : Env
  events : List Event
  ret : JValue
  err : Option (String × String)
deriving DecidableEq, Repr

/-- Resolve a reference in the heap (first match). -/
def findObj : Heap → Nat → Option JObject
  | [], _ => none
  | (r', o) :: t, r => if r' = r then some o else findObj t r

/-- Look up a field by name and signature in a field table (first match);
this is `GetFieldID` followed by the corresponding `Get...Field`. -/
def getFieldVal : List JField → String → String → Option JValue
  | [], _, _ => none
  | f :: t, n, s => if f.name = n ∧ f.sig = s then some f.value else getFieldVal t n s

/-- Overwrite the value of the first field matching name and signature;
a no-op if no field matches. -/
def setFieldVal : List JField → String → String → JValue → List JField
  | [], _, _, _ => []
  | f :: t, n, s, v =>
    if f.name = n ∧ f.sig = s then { f with value := v } :: t
    else f :: setFieldVal t n s v

/-- Whether `GetFieldID` on object `r` succeeds for this name and signature. -/
def hasField (h : Heap) (r : Nat) (n s : String) : Bool :=
  match findObj h r with
  | none => false
  | some o => (getFieldVal o.fields n s).isSome

/-- Read a field of a heap object. -/
def getField (h : Heap) (r : Nat) (n s : String) : Option JValue :=
  match findObj h r with
  | none => none
  | some o => getFieldVal o.fields n s

/-- Write an existing field of a heap object (`SetIntField`/`SetObjectField`
through a previously resolved field ID); a no-op on a missing object. -/
def setField : Heap → Nat → String → String → JValue → Heap
  | [], _, _, _, _ => []
  | (r', o) :: t, r, n, s, v =>
    if r' = r then (r', { o with fields := setFieldVal o.fields n s v }) :: t
    else (r', o) :: setField t r n s v

/-- Look up a method by name and signature (`GetMethodID`). -/
def findMethod : List JMethod → String → String → Option JMethod
  | [], _, _ => none
  | m :: t, n, s => if m.name = n ∧ m.sig = s then some m else findMethod t n s

/-- Resolve a class by its binary name (`FindClass`). -/
def lookupClass : List (String × JClass) → String → Option JClass
  | [], _ => none
  | (n', c) :: t, n => if n' = n then some c else lookupClass t n

/-- Read a static field (`GetStaticFieldID` followed by `GetStaticObjectField`): `none` iff the
static field is absent, otherwise its value. -/
def getStaticFieldVal (c : JClass) (n s : String) : Option JValue :=
  getFieldVal c.staticFields n s

/-- JVM type signature of the `holder` field of `java.net.InetSocketAddress`. -/
def holderSig : String := "Ljava/net/InetSocketAddress$InetSocketAddressHolder;"

/-- The exception kind `kExceptionSocketException` used by `setPort`. -/
def kExceptionSocketException : String := "SocketException"

/-- The message `setPort` throws when no `port` field can be resolved. -/
def portErrMsg : String :=
  "Cannot find field \"port\" in java.net.InetSocketAddress. Unsupported JVM?"

/-- The function `Java_org_newsclub_net_unix_NativeUnixSocket_setPort`, translated
line by line from reflection.c: resolve field `holder` on the address object;
if present, redirect `fieldObject` to the holder and resolve `port:I` on the
holder's class, else resolve `port:I` on the address object's class; if the
`port` field is unresolved, throw a `SocketException` and return, otherwise
`SetIntField(fieldObject, portField, port)`. -/
def setPort (e : Env) (addr : Nat) (port : Int) : OpResult :=
  if hasField e.heap addr "holder" holderSig then
    match getField e.heap addr "holder" holderSig with
    | some (.vRef fieldObject) =>
      if hasField e.heap fieldObject "port" "I" then
        { env := { e with heap := setField e.heap fieldObject "port" "I" (.vInt port) }
          events := [.writeField fieldObject "port" (.vInt port)]
          ret := .vNull
          err := none }
      else
        { env := e, events := [], ret := .vNull
          err := some (kExceptionSocketException, portErrMsg) }
    | _ =>
      { env := e, events := [], ret := .vNull
        err := some (kExceptionSocketException, portErrMsg) }
  else
    if hasField e.heap addr "port" "I" then
      { env := { e with heap := setField e.heap addr "port" "I" (.vInt port) }
        events := [.writeField addr "port" (.vInt port)]
        ret := .vNull
        err := none }
    else
      { env := e, events := [], ret := .vNull
        err := some (kExceptionSocketException, portErrMsg) }

/-- Insert-or-overwrite in a field table: overwrite the first field matching
name and signature, or append the field if none matches. -/
def putFieldVal (fs : List JField) (n s : String) (v : JValue) : List JField :=
  if (getFieldVal fs n s).isSome then setFieldVal fs n s v
  else fs ++ [⟨n, s, v⟩]

/-- Modelled from the spec: `setObjectFieldValue` is defined in jniutil.c,
which is not part of src/.  Per the spec it "sets a private field `impl` on
`serverSocket` to `impl`" unconditionally: the named field of the object is
set to the value (no failure mode is described). -/
def setObjectFieldValue : Heap → Nat → String → String → JValue → Heap
  | [], _, _, _, _ => []
  | (r', o) :: t, r, n, s, v =>
    if r' = r then (r', { o with fields := putFieldVal o.fields n s v }) :: t
    else (r', o) :: setObjectFieldValue t r n s v

/-- Modelled from the spec: `setObjectFieldValueIfPossible` is defined in
jniutil.c, which is not part of src/.  Per the spec it "best-effort sets a
back-reference field ... (absent on newer runtimes — failure is tolerated)":
if the object has the named field it is overwritten and the call reports
success, otherwise nothing is changed and the call reports failure.  The
attempt itself and a successful write are recorded as events. -/
def setObjectFieldValueIfPossible (h : Heap) (r : Nat) (n s : String) (v : JValue) :
    Heap × Bool × List Event :=
  if hasField h r n s then
    (setField h r n s v, true, [.attemptWrite r n, .writeField r n v])
  else
    (h, false, [.attemptWrite r n])

/-- Modelled from the spec: `callObjectSetter` is defined in jniutil.c, which
is not part of src/.  Per the spec it "invokes a setter-like method ... on a
descriptor object, passing a closeable resource": the named method is invoked
on the object with the given argument, and nothing else happens. -/
def callObjectSetter (e : Env) (r : Nat) (n s : String) (arg : JValue) : OpResult :=
  { env := e, events := [.callMethod r n s (some arg)], ret := .vNull, err := none }

/-- JVM signature of the `impl` field written by `initServerImpl`. -/
def socketImplSig : String := "Ljava/net/SocketImpl;"

/-- JVM signature of the best-effort `serverSocket` back-reference field. -/
def serverSocketSig : String := "Ljava/net/ServerSocket;"

/-- The initial value of the process-wide flag:
`static jboolean doSetServerSocket = true;`. -/
def doSetServerSocketInit : Bool := true

/-- The function `Java_org_newsclub_net_unix_NativeUnixSocket_initServerImpl`, translated
from reflection.c: unconditionally `setObjectFieldValue(serverSocket, "impl",
impl)`; then, only while the process-wide flag `doSetServerSocket` is still
set, best-effort set the back-reference `serverSocket` field on `impl` and
store the attempt's success back into the flag. -/
def initServerImpl (e : Env) (serverSocket impl : Nat) : OpResult :=
  let h1 := setObjectFieldValue e.heap serverSocket "impl" socketImplSig (.vRef impl)
  if e.doSetServerSocket then
    let (h2, ok2, evs2) :=
      setObjectFieldValueIfPossible h1 impl "serverSocket" serverSocketSig (.vRef serverSocket)
    { env := { e with heap := h2, doSetServerSocket := ok2 }
      events := Event.writeField serverSocket "impl" (.vRef impl) :: evs2
      ret := .vNull
      err := none }
  else
    { env := { e with heap := h1 }
      events := [.writeField serverSocket "impl" (.vRef impl)]
      ret := .vNull
      err := none }

/-- The function `Java_org_newsclub_net_unix_NativeUnixSocket_attachCloseable`, translated
from reflection.c: a single `callObjectSetter(fdesc, "attach",
"(Ljava/io/Closeable;)V", closeable)`. -/
def attachCloseable (e : Env) (fdesc : Nat) (closeable : JValue) : OpResult :=
  callObjectSetter e fdesc "attach" "(Ljava/io/Closeable;)V" closeable

/-- Binary name of the class `currentRMISocket` starts from. -/
def tcpTransportClassName : String := "sun/rmi/transport/tcp/TCPTransport"

/-- JVM signature of `java.lang.ThreadLocal`. -/
def threadLocalSig : String := "Ljava/lang/ThreadLocal;"

/-- JVM signature of `ThreadLocal.get()`. -/
def tlGetSig : String := "()Ljava/lang/Object;"

/-- JVM signature of `java.net.Socket`. -/
def socketSig : String := "Ljava/net/Socket;"

/-- A `vNull` return with no pending exception, as produced by every
early-return of `currentRMISocket`. -/
def nullReturn (e : Env) (evs : List Event) : OpResult :=
  { env := e, events := evs, ret := .vNull, err := none }

/-- The function `Java_org_newsclub_net_unix_NativeUnixSocket_currentRMISocket`, translated
from reflection.c: find class `sun.rmi.transport.tcp.TCPTransport`; read its
static field `threadConnectionHandler : ThreadLocal`; resolve `get()` on the
thread-local's class and invoke it to obtain the calling thread's connection
handler; read the handler's `socket : java.net.Socket` field and return it.
Every failed step returns `NULL` (here `vNull`) without raising anything;
`GetObjectClass` on a dangling reference is modelled as a failed step. -/
def currentRMISocket (e : Env) : OpResult :=
  match lookupClass e.classes tcpTransportClassName with
  | none => nullReturn e []
  | some tcpTransport =>
    match getStaticFieldVal tcpTransport "threadConnectionHandler" threadLocalSig with
    | none => nullReturn e []
    | some tlVal =>
      match tlVal with
      | .vRef tl =>
        match findObj e.heap tl with
        | none => nullReturn e []
        | some tlObj =>
          match findMethod tlObj.methods "get" tlGetSig with
          | none => nullReturn e []
          | some tlGet =>
            match tlGet.ret with
            | .vRef connHandler =>
              match findObj e.heap connHandler with
              | none => nullReturn e [.callMethod tl "get" tlGetSig none]
              | some connHandlerObj =>
                match getFieldVal connHandlerObj.fields "socket" socketSig with
                | none => nullReturn e [.callMethod tl "get" tlGetSig none]
                | some socket =>
                  { env := e, events := [.callMethod tl "get" tlGetSig none]
                    ret := socket, err := none }
            | _ => nullReturn e [.callMethod tl "get" tlGetSig none]
      | _ => nullReturn e []

/-- Fold `initServerImpl` over a list of `(serverSocket, impl)` calls,
collecting each call's event trace. -/
def runInit (e : Env) : List (Nat × Nat) → Env × List (List Event)
  | [] => (e, [])
  | (ss, im) :: rest =>
    let r := initServerImpl e ss im
    let (e', evss) := runInit r.env rest
    (e', r.events :: evss)

/-- Spec-side definition, for comparison with `setPort`: the layout search
described by the spec sentence for `setPort` resolves a `port` field.  Under
the holder layout the address object's `holder` field must reference an object
carrying an integer `port` field; under the direct layout the address object
itself carries an integer `port` field.  The code consults the holder layout
exactly when the `holder` field exists, and the direct layout otherwise. -/
def portFieldFoundSpec (h : Heap) (addr : Nat) : Bool :=
  if hasField h addr "holder" holderSig then
    match getField h addr "holder" holderSig with
    | some (.vRef fo) => hasField h fo "port" "I"
    | _ => false
  else
    hasField h addr "port" "I"

/-- The observable part of a call's result: everything except the
process-wide flag carried inside `env`. -/
def obs (r : OpResult) : Heap × List Event × JValue × Option (String × String) :=
  (r.env.heap, r.events, r.ret, r.err)

/-- Replace the process-wide flag of an environment. -/
def setFlag (e : Env) (b : Bool) : Env :=
  { e with doSetServerSocket := b }

/-- All event lists in a list of traces are free of write attempts. -/
def noAttempts (evss : List (List Event)) : Bool :=
  evss.all fun evs => !(evs.any Event.isAttempt)

/-- An event trace contains no field write. -/
def noWrites (evs : List Event) : Bool :=
  evs.all fun ev => !ev.isWrite

theorem getFieldVal_setFieldVal_self (fs : List JField) (n s : String) (v : JValue)
    (hin : (getFieldVal fs n s).isSome = true) :
    getFieldVal (setFieldVal fs n s v) n s = some v := by
  induction fs with
  | nil => simp [getFieldVal] at hin
  | cons f t ih =>
    by_cases hf : f.name = n ∧ f.sig = s
    · simp [setFieldVal, getFieldVal, hf]
    · simp [setFieldVal, getFieldVal, hf] at hin ⊢
      exact ih hin

theorem getFieldVal_setFieldVal_ne (fs : List JField) (n s n' s' : String) (v : JValue)
    (hne : n' ≠ n) :
    getFieldVal (setFieldVal fs n s v) n' s' = getFieldVal fs n' s' := by
  induction fs with
  | nil => simp [setFieldVal]
  | cons f t ih =>
    by_cases hf : f.name = n ∧ f.sig = s
    · have hcond : ¬(n = n' ∧ s = s') := fun hp => hne hp.1.symm
      simp [setFieldVal, getFieldVal, hf, hcond]
    · simp [setFieldVal, getFieldVal, hf]
      by_cases hg : f.name = n' ∧ f.sig = s'
      · simp [hg]
      · simp [hg, ih]

theorem getFieldVal_append (fs gs : List JField) (n s : String) :
    getFieldVal (fs ++ gs) n s =
      match getFieldVal fs n s with
      | some v => some v
      | none => getFieldVal gs n s := by
  induction fs with
  | nil => simp [getFieldVal]
  | cons f t ih =>
    by_cases hf : f.name = n ∧ f.sig = s
    · simp [getFieldVal, hf]
    · simp [getFieldVal, hf, ih]

theorem getFieldVal_putFieldVal_self (fs : List JField) (n s : String) (v : JValue) :
    getFieldVal (putFieldVal fs n s v) n s = some v := by
  unfold putFieldVal
  by_cases hin : (getFieldVal fs n s).isSome = true
  · simp [hin, getFieldVal_setFieldVal_self fs n s v hin]
  · have hnone : getFieldVal fs n s = none := by
      cases hg : getFieldVal fs n s
      · rfl
      · rw [hg] at hin; simp at hin
    simp [hin, getFieldVal_append, hnone, getFieldVal]

theorem getFieldVal_putFieldVal_ne (fs : List JField) (n s n' s' : String) (v : JValue)
    (hne : n' ≠ n) :
    getFieldVal (putFieldVal fs n s v) n' s' = getFieldVal fs n' s' := by
  unfold putFieldVal
  by_cases hin : (getFieldVal fs n s).isSome = true
  · simp [hin, getFieldVal_setFieldVal_ne fs n s n' s' v hne]
  · simp [hin, getFieldVal_append]
    cases hg : getFieldVal fs n' s'
    · simp [getFieldVal]
      exact fun hp => (hne hp.symm).elim
    · simp

theorem findObj_setField_ne (h : Heap) (r r' : Nat) (n s : String) (v : JValue)
    (hne : r' ≠ r) :
    findObj (setField h r n s v) r' = findObj h r' := by
  induction h with
  | nil => simp [setField]
  | cons p t ih =>
    obtain ⟨r0, o⟩ := p
    by_cases h0 : r0 = r
    · subst h0
      have hne' : ¬(r0 = r') := fun hh => hne hh.symm
      simp [setField, findObj, hne']
    · by_cases h1 : r0 = r'
      · simp [setField, findObj, h0, h1, hne]
      · simp [setField, findObj, h0, h1, ih]

theorem findObj_setField_self (h : Heap) (r : Nat) (n s : String) (v : JValue) :
    findObj (setField h r n s v) r =
      (findObj h r).map fun o => { o with fields := setFieldVal o.fields n s v } := by
  induction h with
  | nil => simp [setField, findObj]
  | cons p t ih =>
    obtain ⟨r0, o⟩ := p
    by_cases h0 : r0 = r
    · simp [setField, findObj, h0]
    · simp [setField, findObj, h0, ih]

theorem findObj_setObjectFieldValue_ne (h : Heap) (r r' : Nat) (n s : String) (v : JValue)
    (hne : r' ≠ r) :
    findObj (setObjectFieldValue h r n s v) r' = findObj h r' := by
  induction h with
  | nil => simp [setObjectFieldValue]
  | cons p t ih =>
    obtain ⟨r0, o⟩ := p
    by_cases h0 : r0 = r
    · subst h0
      have hne' : ¬(r0 = r') := fun hh => hne hh.symm
      simp [setObjectFieldValue, findObj, hne']
    · by_cases h1 : r0 = r'
      · simp [setObjectFieldValue, findObj, h0, h1, hne]
      · simp [setObjectFieldValue, findObj, h0, h1, ih]

theorem findObj_setObjectFieldValue_self (h : Heap) (r : Nat) (n s : String) (v : JValue) :
    findObj (setObjectFieldValue h r n s v) r =
      (findObj h r).map fun o => { o with fields := putFieldVal o.fields n s v } := by
  induction h with
  | nil => simp [setObjectFieldValue, findObj]
  | cons p t ih =>
    obtain ⟨r0, o⟩ := p
    by_cases h0 : r0 = r
    · simp [setObjectFieldValue, findObj, h0]
    · simp [setObjectFieldValue, findObj, h0, ih]

theorem getField_setField_self (h : Heap) (r : Nat) (n s : String) (v : JValue)
    (hf : hasField h r n s = true) :
    getField (setField h r n s v) r n s = some v := by
  cases ho : findObj h r with
  | none => simp [hasField, ho] at hf
  | some o =>
    have hin : (getFieldVal o.fields n s).isSome = true := by
      simpa [hasField, ho] using hf
    simp [getField, findObj_setField_self, ho,
      getFieldVal_setFieldVal_self o.fields n s v hin]

theorem getField_setField_ne_name (h : Heap) (r r' : Nat) (n s n' s' : String) (v : JValue)
    (hne : n' ≠ n) :
    getField (setField h r n s v) r' n' s' = getField h r' n' s' := by
  by_cases hr : r' = r
  · subst hr
    cases ho : findObj h r' with
    | none => simp [getField, findObj_setField_self, ho]
    | some o =>
      simp [getField, findObj_setField_self, ho,
        getFieldVal_setFieldVal_ne o.fields n s n' s' v hne]
  · simp [getField, findObj_setField_ne h r r' n s v hr]

theorem getField_setObjectFieldValue_self (h : Heap) (r : Nat) (n s : String) (v : JValue)
    (hv : (findObj h r).isSome = true) :
    getField (setObjectFieldValue h r n s v) r n s = some v := by
  cases ho : findObj h r with
  | none => rw [ho] at hv; simp at hv
  | some o =>
    simp [getField, findObj_setObjectFieldValue_self, ho,
      getFieldVal_putFieldVal_self o.fields n s v]

theorem setPort_err_eq (e : Env) (addr : Nat) (port : Int) :
    (setPort e addr port).err =
      if portFieldFoundSpec e.heap addr then none
      else some (kExceptionSocketException, portErrMsg) := by
  unfold setPort portFieldFoundSpec
  by_cases hh : hasField e.heap addr "holder" holderSig
  · simp only [hh, if_true]
    cases hg : getField e.heap addr "holder" holderSig with
    | none => simp
    | some v =>
      cases v with
      | vNull => simp
      | vInt i => simp
      | vRef fo =>
        by_cases hp : hasField e.heap fo "port" "I" <;> simp [hp]
  · simp only [hh, if_false, Bool.false_eq_true]
    by_cases hp : hasField e.heap addr "port" "I" <;> simp [hp]

/-- Concrete input refuting claim C1 as stated: the address object `0` has a
`holder` field referencing object `1`, which lacks a `port` field, and also
carries an integer `port` field directly.  The direct layout yields a port
field, yet `setPort` raises the `SocketException`: the direct layout is never
consulted once a `holder` field exists. -/
def eC1 : Env :=
  { heap := [(0, { fields := [⟨"holder", holderSig, .vRef 1⟩, ⟨"port", "I", .vInt 0⟩]
                   methods := [] }),
             (1, { fields := [], methods := [] })]
    classes := []
    doSetServerSocket := true }

/-- C1: counterexample.  On `eC1` a `port` field is found under the direct
layout, but the call still fails with the `SocketException`. -/
theorem setPort_direct_port_ignored_cex :
    hasField eC1.heap 0 "port" "I" = true ∧
    (setPort eC1 0 99).err = some (kExceptionSocketException, portErrMsg) := by
  constructor
  · decide
  · decide

/-- C1 (amended): `setPort` fails iff the layout it consults yields no integer
`port` field — the holder layout (the `holder` field's object must carry
`port:I`) whenever the address object has a `holder` field, the direct layout
otherwise; the failure is the `SocketException` with the descriptive message,
and when the consulted layout yields a port field, no failure is raised. -/
theorem setPort_failure_iff_consulted_layout (e : Env) (addr : Nat) (port : Int) :
    ((setPort e addr port).err ≠ none ↔ portFieldFoundSpec e.heap addr = false) ∧
    (setPort e addr port).err =
      (if portFieldFoundSpec e.heap addr then none
       else some (kExceptionSocketException, portErrMsg)) := by
  refine ⟨?_, setPort_err_eq e addr port⟩
  rw [setPort_err_eq e addr port]
  by_cases hps : portFieldFoundSpec e.heap addr <;> simp [hps]

/-- C2: when `setPort` succeeds, the integer `port` field is overwritten with
the given value; the write targets the holder object referenced by the address
object's `holder` field when that field exists, and the address object itself
otherwise. -/
theorem setPort_writes_port_target (e : Env) (addr : Nat) (port : Int)
    (hok : (setPort e addr port).err = none) :
    (hasField e.heap addr "holder" holderSig = true →
      ∃ fo, getField e.heap addr "holder" holderSig = some (.vRef fo) ∧
        (setPort e addr port).env.heap = setField e.heap fo "port" "I" (.vInt port) ∧
        getField (setPort e addr port).env.heap fo "port" "I" = some (.vInt port)) ∧
    (hasField e.heap addr "holder" holderSig = false →
      (setPort e addr port).env.heap = setField e.heap addr "port" "I" (.vInt port) ∧
      getField (setPort e addr port).env.heap addr "port" "I" = some (.vInt port)) := by
  by_cases hh : hasField e.heap addr "holder" holderSig
  · refine ⟨fun _ => ?_, fun hcontra => by rw [hh] at hcontra; cases hcontra⟩
    cases hg : getField e.heap addr "holder" holderSig with
    | none => simp [setPort, hh, hg] at hok
    | some v =>
      cases v with
      | vNull => simp [setPort, hh, hg] at hok
      | vInt i => simp [setPort, hh, hg] at hok
      | vRef fo =>
        by_cases hp : hasField e.heap fo "port" "I"
        · refine ⟨fo, rfl, ?_, ?_⟩
          · simp [setPort, hh, hg, hp]
          · simp only [setPort, hh, hg, hp, if_true]
            exact getField_setField_self e.heap fo "port" "I" (.vInt port) hp
        · simp [setPort, hh, hg, hp] at hok
  · have hh' : hasField e.heap addr "holder" holderSig = false := by
      simpa using hh
    refine ⟨?_, fun _ => ?_⟩
    · intro hcontra
      rw [hh'] at hcontra
      cases hcontra
    · by_cases hp : hasField e.heap addr "port" "I"
      · constructor
        · simp [setPort, hh, hp]
        · simp only [setPort, hh, hp, if_true, if_false]
          exact getField_setField_self e.heap addr "port" "I" (.vInt port) hp
      · simp [setPort, hh, hp] at hok

/-- A direct-layout address for exercising `setPort`'s success path: object `0`
has no `holder` field and an integer `port` field. -/
def eC2 : Env :=
  { heap := [(0, { fields := [⟨"port", "I", .vInt 0⟩], methods := [] })]
    classes := []
    doSetServerSocket := true }

/-- C2: witness. -/
theorem setPort_writes_port_target_witness :
    (setPort eC2 0 5).env.heap = setField eC2.heap 0 "port" "I" (.vInt 5) ∧
    getField (setPort eC2 0 5).env.heap 0 "port" "I" = some (.vInt 5) :=
  (setPort_writes_port_target eC2 0 5 (by decide)).2 (by decide)

/-- C9: `setPort` is atomic on error: when the `SocketException` is raised,
the heap is returned unchanged and no write event occurs. -/
theorem setPort_atomic_on_error (e : Env) (addr : Nat) (port : Int)
    (he : (setPort e addr port).err ≠ none) :
    (setPort e addr port).env = e ∧ (setPort e addr port).events = [] := by
  by_cases hh : hasField e.heap addr "holder" holderSig
  · cases hg : getField e.heap addr "holder" holderSig with
    | none => simp [setPort, hh, hg]
    | some v =>
      cases v with
      | vNull => simp [setPort, hh, hg]
      | vInt i => simp [setPort, hh, hg]
      | vRef fo =>
        by_cases hp : hasField e.heap fo "port" "I"
        · exact absurd (by simp [setPort, hh, hg, hp]) he
        · simp [setPort, hh, hg, hp]
  · by_cases hp : hasField e.heap addr "port" "I"
    · exact absurd (by simp [setPort, hh, hp]) he
    · simp [setPort, hh, hp]

/-- An address object with neither `holder` nor `port` field, so `setPort`
fails. -/
def eC9 : Env :=
  { heap := [(0, { fields := [], methods := [] })]
    classes := []
    doSetServerSocket := true }

/-- C9: witness. -/
theorem setPort_atomic_on_error_witness :
    (setPort eC9 0 7).env = eC9 ∧ (setPort eC9 0 7).events = [] :=
  setPort_atomic_on_error eC9 0 7 (by decide)

theorem currentRMISocket_parts (e : Env) :
    (currentRMISocket e).env = e ∧ noWrites (currentRMISocket e).events = true ∧
    (currentRMISocket e).err = none := by
  unfold currentRMISocket
  repeat' split
  all_goals simp [nullReturn, noWrites, Event.isWrite]

/-- C10: `currentRMISocket` is a pure query: the environment (heap, classes
and their static fields, flag) is returned unchanged, its event trace contains
no field write, and no exception becomes pending. -/
theorem currentRMISocket_pure (e : Env) :
    (currentRMISocket e).env = e ∧ noWrites (currentRMISocket e).events = true :=
  ⟨(currentRMISocket_parts e).1, (currentRMISocket_parts e).2.1⟩

/-- C3: `currentRMISocket` returns null whenever any step of the lookup chain
is missing (the `TCPTransport` class, its static `threadConnectionHandler`
field, a non-null thread-local object resolvable in the heap, its `get`
method, a non-null resolvable connection handler, the handler's `socket`
field), and returns the value of the handler's `socket` field when every step
succeeds. -/
theorem currentRMISocket_chain (e : Env) :
    (lookupClass e.classes tcpTransportClassName = none →
      (currentRMISocket e).ret = .vNull) ∧
    (∀ cls, lookupClass e.classes tcpTransportClassName = some cls →
      getStaticFieldVal cls "threadConnectionHandler" threadLocalSig = none →
      (currentRMISocket e).ret = .vNull) ∧
    (∀ cls v, lookupClass e.classes tcpTransportClassName = some cls →
      getStaticFieldVal cls "threadConnectionHandler" threadLocalSig = some v →
      (∀ r, v ≠ .vRef r) →
      (currentRMISocket e).ret = .vNull) ∧
    (∀ cls tl, lookupClass e.classes tcpTransportClassName = some cls →
      getStaticFieldVal cls "threadConnectionHandler" threadLocalSig = some (.vRef tl) →
      findObj e.heap tl = none →
      (currentRMISocket e).ret = .vNull) ∧
    (∀ cls tl tlObj, lookupClass e.classes tcpTransportClassName = some cls →
      getStaticFieldVal cls "threadConnectionHandler" threadLocalSig = some (.vRef tl) →
      findObj e.heap tl = some tlObj →
      findMethod tlObj.methods "get" tlGetSig = none →
      (currentRMISocket e).ret = .vNull) ∧
    (∀ cls tl tlObj m, lookupClass e.classes tcpTransportClassName = some cls →
      getStaticFieldVal cls "threadConnectionHandler" threadLocalSig = some (.vRef tl) →
      findObj e.heap tl = some tlObj →
      findMethod tlObj.methods "get" tlGetSig = some m →
      (∀ r, m.ret ≠ .vRef r) →
      (currentRMISocket e).ret = .vNull) ∧
    (∀ cls tl tlObj m ch, lookupClass e.classes tcpTransportClassName = some cls →
      getStaticFieldVal cls "threadConnectionHandler" threadLocalSig = some (.vRef tl) →
      findObj e.heap tl = some tlObj →
      findMethod tlObj.methods "get" tlGetSig = some m →
      m.ret = .vRef ch →
      findObj e.heap ch = none →
      (currentRMISocket e).ret = .vNull) ∧
    (∀ cls tl tlObj m ch chObj, lookupClass e.classes tcpTransportClassName = some cls →
      getStaticFieldVal cls "threadConnectionHandler" threadLocalSig = some (.vRef tl) →
      findObj e.heap tl = some tlObj →
      findMethod tlObj.methods "get" tlGetSig = some m →
      m.ret = .vRef ch →
      findObj e.heap ch = some chObj →
      getFieldVal chObj.fields "socket" socketSig = none →
      (currentRMISocket e).ret = .vNull) ∧
    (∀ cls tl tlObj m ch chObj sv, lookupClass e.classes tcpTransportClassName = some cls →
      getStaticFieldVal cls "threadConnectionHandler" threadLocalSig = some (.vRef tl) →
      findObj e.heap tl = some tlObj →
      findMethod tlObj.methods "get" tlGetSig = some m →
      m.ret = .vRef ch →
      findObj e.heap ch = some chObj →
      getFieldVal chObj.fields "socket" socketSig = some sv →
      (currentRMISocket e).ret = sv) := by
  refine ⟨?_, ?_, ?_, ?_, ?_, ?_, ?_, ?_, ?_⟩
  · intro h1
    simp [currentRMISocket, h1, nullReturn]
  · intro cls h1 h2
    simp [currentRMISocket, h1, h2, nullReturn]
  · intro cls v h1 h2 hno
    cases v with
    | vRef r => exact absurd rfl (hno r)
    | vNull => simp [currentRMISocket, h1, h2, nullReturn]
    | vInt i => simp [currentRMISocket, h1, h2, nullReturn]
  · intro cls tl h1 h2 h3
    simp [currentRMISocket, h1, h2, h3, nullReturn]
  · intro cls tl tlObj h1 h2 h3 h4
    simp [currentRMISocket, h1, h2, h3, h4, nullReturn]
  · intro cls tl tlObj m h1 h2 h3 h4 hno
    cases hr : m.ret with
    | vRef r => exact absurd hr (hno r)
    | vNull => simp [currentRMISocket, h1, h2, h3, h4, hr, nullReturn]
    | vInt i => simp [currentRMISocket, h1, h2, h3, h4, hr, nullReturn]
  · intro cls tl tlObj m ch h1 h2 h3 h4 h5 h6
    simp [currentRMISocket, h1, h2, h3, h4, h5, h6, nullReturn]
  · intro cls tl tlObj m ch chObj h1 h2 h3 h4 h5 h6 h7
    simp [currentRMISocket, h1, h2, h3, h4, h5, h6, h7, nullReturn]
  · intro cls tl tlObj m ch chObj sv h1 h2 h3 h4 h5 h6 h7
    simp [currentRMISocket, h1, h2, h3, h4, h5, h6, h7]

/-- An environment in which the whole RMI lookup chain is present: the
`TCPTransport` class is loaded, its static `threadConnectionHandler` field
references thread-local object `10`, whose `get()` returns connection handler
`11`, whose `socket` field references socket `12`. -/
def eC3 : Env :=
  { heap := [(10, { fields := [], methods := [⟨"get", tlGetSig, .vRef 11⟩] }),
             (11, { fields := [⟨"socket", socketSig, .vRef 12⟩], methods := [] }),
             (12, { fields := [], methods := [] })]
    classes := [(tcpTransportClassName,
                 { staticFields := [⟨"threadConnectionHandler", threadLocalSig, .vRef 10⟩] })]
    doSetServerSocket := true }

/-- C3: witness. -/
theorem currentRMISocket_chain_witness :
    (currentRMISocket eC3).ret = .vRef 12 :=
  (currentRMISocket_chain eC3).2.2.2.2.2.2.2.2
    { staticFields := [⟨"threadConnectionHandler", threadLocalSig, .vRef 10⟩] }
    10
    { fields := [], methods := [⟨"get", tlGetSig, .vRef 11⟩] }
    ⟨"get", tlGetSig, .vRef 11⟩
    11
    { fields := [⟨"socket", socketSig, .vRef 12⟩], methods := [] }
    (.vRef 12)
    (by decide) (by decide) (by decide) (by decide) rfl (by decide) (by decide)

/-- C4: `initServerImpl` sets the private `impl` field on the server socket
object to the given implementation on every call, whatever the state of the
one-shot flag (the only requirement is that `serverSocket` is a live object
reference). -/
theorem initServerImpl_sets_impl (e : Env) (ss impl : Nat)
    (hv : (findObj e.heap ss).isSome = true) :
    getField (initServerImpl e ss impl).env.heap ss "impl" socketImplSig =
      some (.vRef impl) := by
  have h1 : getField (setObjectFieldValue e.heap ss "impl" socketImplSig (.vRef impl))
      ss "impl" socketImplSig = some (.vRef impl) :=
    getField_setObjectFieldValue_self e.heap ss "impl" socketImplSig (.vRef impl) hv
  cases hflag : e.doSetServerSocket with
  | false => simpa [initServerImpl, hflag] using h1
  | true =>
    simp only [initServerImpl, hflag, if_true]
    unfold setObjectFieldValueIfPossible
    by_cases hsf : hasField (setObjectFieldValue e.heap ss "impl" socketImplSig (.vRef impl))
        impl "serverSocket" serverSocketSig
    · simp only [hsf, if_true]
      rw [getField_setField_ne_name _ _ _ _ _ _ _ _ (by decide : "impl" ≠ "serverSocket")]
      exact h1
    · simp only [hsf, if_false]
      exact h1

/-- Two empty live objects, for exercising `initServerImpl`. -/
def eC4 : Env :=
  { heap := [(0, { fields := [], methods := [] }), (1, { fields := [], methods := [] })]
    classes := []
    doSetServerSocket := true }

/-- C4: witness. -/
theorem initServerImpl_sets_impl_witness :
    getField (initServerImpl eC4 0 1).env.heap 0 "impl" socketImplSig = some (.vRef 1) :=
  initServerImpl_sets_impl eC4 0 1 (by decide)

theorem initServerImpl_flag_false (e : Env) (ss impl : Nat)
    (hf : e.doSetServerSocket = false) :
    (initServerImpl e ss impl).env.doSetServerSocket = false ∧
    (initServerImpl e ss impl).events = [.writeField ss "impl" (.vRef impl)] := by
  constructor <;> simp [initServerImpl, hf]

/-- C5: the one-shot behaviour of the back-reference attempt.  A call attempts
the best-effort `serverSocket` back-reference write exactly when the
process-wide flag is still set; after an attempting call, the flag records
whether the attempt succeeded (the field existed); and once the flag is
cleared, no call in any subsequent sequence of `initServerImpl` calls ever
attempts the back-reference again. -/
theorem initServerImpl_one_shot (e : Env) (ss impl : Nat) (calls : List (Nat × Nat)) :
    ((initServerImpl e ss impl).events.any Event.isAttempt = true ↔
      e.doSetServerSocket = true) ∧
    (e.doSetServerSocket = true →
      (initServerImpl e ss impl).env.doSetServerSocket =
        hasField (setObjectFieldValue e.heap ss "impl" socketImplSig (.vRef impl))
          impl "serverSocket" serverSocketSig) ∧
    (e.doSetServerSocket = false → noAttempts (runInit e calls).2 = true) := by
  refine ⟨?_, ?_, ?_⟩
  · cases hflag : e.doSetServerSocket with
    | false => simp [initServerImpl, hflag, Event.isAttempt]
    | true =>
      simp only [initServerImpl, hflag, if_true]
      unfold setObjectFieldValueIfPossible
      by_cases hsf : hasField (setObjectFieldValue e.heap ss "impl" socketImplSig (.vRef impl))
          impl "serverSocket" serverSocketSig
      · simp [hsf, Event.isAttempt]
      · simp [hsf, Event.isAttempt]
  · intro hflag
    simp only [initServerImpl, hflag, if_true]
    unfold setObjectFieldValueIfPossible
    by_cases hsf : hasField (setObjectFieldValue e.heap ss "impl" socketImplSig (.vRef impl))
        impl "serverSocket" serverSocketSig
    · simp [hsf]
    · simp [hsf]
  · intro hflag
    induction calls generalizing e with
    | nil => simp [runInit, noAttempts]
    | cons c rest ih =>
      obtain ⟨ss', im'⟩ := c
      have hstep := initServerImpl_flag_false e ss' im' hflag
      simp only [runInit]
      simp [noAttempts, hstep.2, Event.isAttempt]
      have := ih (initServerImpl e ss' im').env hstep.1
      simpa [noAttempts] using this

/-- C8: `attachCloseable` invokes the setter-like method `attach`
(`(Ljava/io/Closeable;)V`) on the descriptor object with the closeable as the
only argument, and does nothing else: no heap change, no flag change, no other
event, a void return, no exception. -/
theorem attachCloseable_invokes_attach (e : Env) (fdesc : Nat) (cl : JValue) :
    attachCloseable e fdesc cl =
      { env := e
        events := [.callMethod fdesc "attach" "(Ljava/io/Closeable;)V" (some cl)]
        ret := .vNull
        err := none } := rfl

/-- C7: across the four operations, the only explicit typed failure ever
raised is `setPort`'s `SocketException` for a missing mandatory `port` field:
`initServerImpl` never raises (a missing back-reference field is tolerated),
`attachCloseable` raises nothing of its own, `currentRMISocket` never raises,
and `setPort` raises exactly when its consulted layout yields no port field,
and then only the `SocketException`. -/
theorem only_setPort_throws (e : Env) (ss impl fdesc addr : Nat) (cl : JValue) (port : Int) :
    (initServerImpl e ss impl).err = none ∧
    (attachCloseable e fdesc cl).err = none ∧
    (currentRMISocket e).err = none ∧
    ((setPort e addr port).err ≠ none ↔ portFieldFoundSpec e.heap addr = false) ∧
    ((setPort e addr port).err = none ∨
      (setPort e addr port).err = some (kExceptionSocketException, portErrMsg)) := by
  refine ⟨?_, rfl, (currentRMISocket_parts e).2.2, ?_, ?_⟩
  · cases hflag : e.doSetServerSocket with
    | false => simp [initServerImpl, hflag]
    | true => simp [initServerImpl, hflag]
  · rw [setPort_err_eq]
    by_cases hps : portFieldFoundSpec e.heap addr <;> simp [hps]
  · rw [setPort_err_eq]
    by_cases hps : portFieldFoundSpec e.heap addr <;> simp [hps]

/-- An environment whose one-shot flag is already cleared. -/
def eC5f : Env :=
  { heap := [(0, { fields := [], methods := [] }), (1, { fields := [], methods := [] })]
    classes := []
    doSetServerSocket := false }

/-- An environment whose one-shot flag is still set; the impl object `1`
lacks the `serverSocket` field, so the attempt will fail. -/
def eC5t : Env :=
  { heap := [(0, { fields := [], methods := [] }), (1, { fields := [], methods := [] })]
    classes := []
    doSetServerSocket := true }

/-- C5: witness. -/
theorem initServerImpl_one_shot_witness :
    noAttempts (runInit eC5f [(0, 1), (0, 1)]).2 = true ∧
    (initServerImpl eC5t 0 1).env.doSetServerSocket =
      hasField (setObjectFieldValue eC5t.heap 0 "impl" socketImplSig (.vRef 1))
        1 "serverSocket" serverSocketSig :=
  ⟨(initServerImpl_one_shot eC5f 0 1 [(0, 1), (0, 1)]).2.2 rfl,
   (initServerImpl_one_shot eC5t 0 1 []).2.1 rfl⟩

/-- A heap where the impl object `1` does carry the optional `serverSocket`
back-reference field. -/
def hC6 : Heap :=
  [(0, { fields := [], methods := [] }),
   (1, { fields := [⟨"serverSocket", serverSocketSig, .vNull⟩], methods := [] })]

/-- The heap `hC6` with the one-shot flag still set. -/
def eC6a : Env := { heap := hC6, classes := [], doSetServerSocket := true }

/-- The heap `hC6` with the one-shot flag already cleared by an earlier failure. -/
def eC6b : Env := { heap := hC6, classes := [], doSetServerSocket := false }

/-- C6: counterexample.  Two `initServerImpl` calls with identical arguments
and identical heaps behave observably differently depending on the
process-wide `doSetServerSocket` flag left behind by earlier calls: with the
flag set the back-reference field gets written, with it cleared it does not. -/
theorem initServerImpl_shared_state_cex :
    eC6a.heap = eC6b.heap ∧ eC6a.classes = eC6b.classes ∧
    obs (initServerImpl eC6a 0 1) ≠ obs (initServerImpl eC6b 0 1) := by
  refine ⟨rfl, rfl, ?_⟩
  decide

/-- C6 (amended): `setPort`, `attachCloseable` and `currentRMISocket` are
stateless — their observable behaviour (heap effect, events, return value,
pending exception) is independent of the process-wide flag and they never
change it — but `initServerImpl` is not: its observable behaviour depends on
the shared one-shot flag `doSetServerSocket`, so two calls with the same
arguments can behave differently depending on which calls preceded them. -/
theorem ops_flag_dependence :
    (∀ e b addr port, obs (setPort (setFlag e b) addr port) = obs (setPort e addr port)) ∧
    (∀ e addr port, (setPort e addr port).env.doSetServerSocket = e.doSetServerSocket) ∧
    (∀ e b fdesc cl, obs (attachCloseable (setFlag e b) fdesc cl) =
      obs (attachCloseable e fdesc cl)) ∧
    (∀ e fdesc cl, (attachCloseable e fdesc cl).env.doSetServerSocket =
      e.doSetServerSocket) ∧
    (∀ e b, obs (currentRMISocket (setFlag e b)) = obs (currentRMISocket e)) ∧
    (∀ e, (currentRMISocket e).env.doSetServerSocket = e.doSetServerSocket) ∧
    (∃ e1 e2 ss impl, e1.heap = e2.heap ∧ e1.classes = e2.classes ∧
      obs (initServerImpl e1 ss impl) ≠ obs (initServerImpl e2 ss impl)) := by
  refine ⟨?_, ?_, fun e b fdesc cl => rfl, fun e fdesc cl => rfl,
    ?_, ?_, ⟨eC6a, eC6b, 0, 1, rfl, rfl, ?_⟩⟩
  · intro e b addr port
    simp only [setPort, setFlag]
    repeat' split
    all_goals rfl
  · intro e addr port
    unfold setPort
    repeat' split
    all_goals rfl
  · intro e b
    simp only [currentRMISocket, setFlag]
    repeat' split
    all_goals rfl
  · intro e
    rw [(currentRMISocket_parts e).1]
  · decide
